import Mathlib

/-!
Verification development for the rollout curation-and-replay pipeline of
tinker-cookbook: the Selector, Curator, Writer, Trace Loader, Change Watcher
and Channel Parser, shallowly embedded from the Python sources
(tinker_cookbook/rl/rollout_saving.py, tinker_cookbook/rollout_viewer/data.py,
tinker_cookbook/rollout_viewer/channels.py).

Strings are modelled as lists of characters (`Str`).  Python floats that only
carry rewards are modelled as `RewardVal` (an exact rational or NaN), which is
faithful for the only operations the code performs on them: `math.isnan` and
ordering comparisons.  JSON values are modelled by the inductive `Json`;
Python dicts are association lists in insertion order, as produced by the
code (Python dicts preserve insertion order and `json.dumps` serializes in
that order).
-/

abbrev Str := List Char

/-- JSON values as produced by `json.loads` / consumed by `json.dumps`.
`nan` is kept separate from finite numbers because `math.isnan` and ordering
are the only float operations the code performs. Objects are association
lists in insertion order. -/
inductive Json where
  | null
  | bool (b : Bool)
  | nan
  | num (q : ℚ)
  | str (s : Str)
  | arr (xs : List Json)
  | obj (fs : List (Str × Json))

/-- Reward values: a real (rational) number or NaN, mirroring the Python
floats stored under total_reward. -/
inductive RewardVal where
  | nan
  | val (q : ℚ)
deriving DecidableEq

def rewardToJson : RewardVal → Json
  | .nan => .nan
  | .val q => .num q

/-- math.isnan on a reward value. -/
def isNaN : RewardVal → Bool
  | .nan => true
  | .val _ => false

/-- Token counts of one message as built by compute_message_tokens in
rollout_saving.py. -/
structure TokenCountRec where
  content_tokens : ℕ
  reasoning_tokens : ℕ

/-- A rollout record as built by default_build_record in rollout_saving.py.
Field order matches the dict insertion order of the builder: timestamp,
step, sample_id, conversation, token_counts, sample_info, individual_rewards,
total_reward, renderer_name.  selection_type is none for a fresh builder
record; select_rollouts_to_save sets it on a copy, which appends the key at
the end of the dict. Fields the code treats as opaque payloads are `Json`. -/
structure Rec where
  timestamp : Str
  step : ℕ
  sample_id : Json
  conversation : Json
  token_counts : List TokenCountRec
  sample_info : Json
  individual_rewards : Json
  total_reward : RewardVal
  renderer_name : Str
  selection_type : Option Str

/-- Default record, used only as the inert default of headD/getLastD/getD on
lists that are provably non-empty at the call sites. -/
def dfltRec : Rec :=
  { timestamp := []
    step := 0
    sample_id := .null
    conversation := .arr []
    token_counts := []
    sample_info := .obj []
    individual_rewards := .obj []
    total_reward := .val 0
    renderer_name := []
    selection_type := none }

/-- Comparison of the sort keys produced by _sort_key_with_nan in
rollout_saving.py: Python compares the tuples (math.isnan(reward), reward)
lexicographically, where False is less than True and `nan lt nan` is False. -/
def keyLT (a b : Rec) : Bool :=
  match a.total_reward, b.total_reward with
  | .nan, _ => false
  | .val _, .nan => true
  | .val x, .val y => decide (x < y)

/-- Insert into an ascending list, placing the new element after every
element it is not strictly below: this reproduces the stable placement of
equal keys used by the stable Python sort. -/
def insertAsc (x : Rec) : List Rec → List Rec
  | [] => [x]
  | y :: ys => if keyLT x y then x :: y :: ys else y :: insertAsc x ys

/-- Stable ascending sort by _sort_key_with_nan, modelling
sorted(rollouts, key=_sort_key_with_nan).  The sort key is a total preorder
(NaN records form one maximal class), and every stable sort of a list under
a total preorder produces the same output, so stable insertion sort is a
faithful model of the stable Python sort. -/
def stableSortRecs (l : List Rec) : List Rec :=
  l.foldl (fun acc x => insertAsc x acc) []

/-- Copy a record and set its selection_type, modelling r.copy() followed by
the selection_type assignment in select_rollouts_to_save. -/
def stamp (r : Rec) (t : Str) : Rec :=
  { r with selection_type := some t }

/-- select_rollouts_to_save from rollout_saving.py.  `pick lo hi` models
random.randint(lo, hi) (a number in the inclusive range chosen by the random
source).  The second component models the logger.warning side effect: a list
of (nan_count, len(rollouts)) pairs emitted. -/
def select_rollouts_to_save (pick : ℕ → ℕ → ℕ) (rollouts : List Rec) :
    List Rec × List (ℕ × ℕ) :=
  match rollouts with
  | [] => ([], [])
  | [r] => ([stamp r "only".data], [])
  | _ =>
    let sorted := stableSortRecs rollouts
    let nan_count := (rollouts.filter (fun r => isNaN r.total_reward)).length
    let warnings := if 0 < nan_count then [(nan_count, rollouts.length)] else []
    let worst := stamp (sorted.headD dfltRec) "worst".data
    let best := stamp (sorted.getLastD dfltRec) "best".data
    let base := [worst, best]
    let out :=
      if 2 < sorted.length then
        base ++ [stamp (sorted.getD (pick 1 (sorted.length - 2)) dfltRec) "random".data]
      else base
    (out, warnings)

/-- Concrete record with reward 1, used in concrete evaluations. -/
def recOne : Rec :=
  { timestamp := "2026-01-01T00:00:00".data
    step := 3
    sample_id := .null
    conversation := .arr []
    token_counts := []
    sample_info := .obj []
    individual_rewards := .obj []
    total_reward := .val 1
    renderer_name := "GptOssRenderer".data
    selection_type := none }

/-- Concrete record with NaN reward, used in concrete evaluations. -/
def recNaN : Rec :=
  { recOne with total_reward := .nan }

/-! Writer: the trace file.  with_rollout_saving writes one compact JSON
object per selected record, one per line (json.dumps escapes newlines, so
lines and values are in bijection); the file is modelled as the list of JSON
values of its lines. -/

/-- Serialization of a record to the JSON object json.dumps would emit:
the builder dict in insertion order, with selection_type appended at the end
when select_rollouts_to_save has set it. -/
def recToJson (r : Rec) : Json :=
  .obj
    ([("timestamp".data, .str r.timestamp),
      ("step".data, .num r.step),
      ("sample_id".data, r.sample_id),
      ("conversation".data, r.conversation),
      ("token_counts".data,
        .arr (r.token_counts.map (fun tc =>
          .obj [("content_tokens".data, .num tc.content_tokens),
                ("reasoning_tokens".data, .num tc.reasoning_tokens)]))),
      ("sample_info".data, r.sample_info),
      ("individual_rewards".data, r.individual_rewards),
      ("total_reward".data, rewardToJson r.total_reward),
      ("renderer_name".data, .str r.renderer_name)] ++
     (match r.selection_type with
      | some s => [("selection_type".data, .str s)]
      | none => []))

/-! Trace Loader: load_rollouts from rollout_viewer/data.py. -/

/-- One line of the trace file as seen by the loader: blank (falsy after
strip), malformed (json.loads raises JSONDecodeError), or a parsed JSON
value. -/
inductive Line where
  | blank
  | malformed
  | valid (j : Json)

/-- Errors the loader can raise out of load_rollouts: KeyError from a
subscript on a dict missing the key, or a TypeError-or-AttributeError from
subscripting or iterating a value of the wrong shape. -/
inductive LoadErr where
  | missingKey (k : Str)
  | typeErr

/-- First-match lookup in an association list, modelling Python dict lookup
(keys are unique in dicts produced by json.loads, so first match is the
match). -/
def lookupStr : List (Str × Json) → Str → Option Json
  | [], _ => none
  | (k, v) :: fs, key => if k = key then some v else lookupStr fs key

/-- data[k] on a parsed JSON value: KeyError when the key is missing,
TypeError when data is not a dict. -/
def jGet (data : Json) (k : Str) : Except LoadErr Json :=
  match data with
  | .obj fs =>
    match lookupStr fs k with
    | some v => .ok v
    | none => .error (.missingKey k)
  | _ => .error .typeErr

/-- data.get(k, d) on a parsed JSON value: AttributeError when data is not a
dict. -/
def jGetOpt (data : Json) (k : Str) (d : Json) : Except LoadErr Json :=
  match data with
  | .obj fs => .ok ((lookupStr fs k).getD d)
  | _ => .error .typeErr

/-- Token counts as stored on the loaded Rollout dataclass.  The Python
dataclass performs no validation, so the field values stay untyped JSON. -/
structure LTokenCount where
  content_tokens : Json
  reasoning_tokens : Json

/-- The Rollout dataclass of rollout_viewer/data.py.  Only `index` is typed
(the loader always supplies a number); every other field holds whatever JSON
the line carried, since the Python dataclass does not validate. -/
structure Rollout where
  index : ℕ
  timestamp : Json
  step : Json
  selection_type : Json
  sample_id : Json
  conversation : Json
  token_counts : List LTokenCount
  scores : Json
  individual_rewards : Json
  total_reward : Json
  renderer_name : Json
  sample_info : Json
  stop_reason : Json

/-- Left-to-right effectful map over Except, modelling a Python loop or
comprehension in which the first raised error aborts. -/
def mapExcept (f : α → Except ε β) : List α → Except ε (List β)
  | [] => .ok []
  | x :: xs =>
    match f x with
    | .error e => .error e
    | .ok y =>
      match mapExcept f xs with
      | .error e => .error e
      | .ok ys => .ok (y :: ys)

/-- TokenCount(content_tokens=tc[...], reasoning_tokens=tc[...]) for one
element of data token_counts. -/
def parseTC (j : Json) : Except LoadErr LTokenCount :=
  match jGet j "content_tokens".data with
  | .error e => .error e
  | .ok c =>
    match jGet j "reasoning_tokens".data with
    | .error e => .error e
    | .ok r => .ok ⟨c, r⟩

/-- The token_counts comprehension: iterating a non-list raises (a dict
would iterate to its string keys and a string to its characters, both of
which then fail the subscript with TypeError, so collapsing all non-list
shapes to typeErr is faithful to the erroring behavior). -/
def parseTCs (j : Json) : Except LoadErr (List LTokenCount) :=
  match j with
  | .arr xs => mapExcept parseTC xs
  | _ => .error .typeErr

/-- Construction of one Rollout from the parsed JSON of line i, in the
evaluation order of the Python source: the token_counts comprehension first,
then the Rollout(...) arguments left to right. -/
def rolloutOfJson (i : ℕ) (data : Json) : Except LoadErr Rollout :=
  match jGet data "token_counts".data with
  | .error e => .error e
  | .ok tcsJ =>
  match parseTCs tcsJ with
  | .error e => .error e
  | .ok tcs =>
  match jGet data "timestamp".data with
  | .error e => .error e
  | .ok ts =>
  match jGet data "step".data with
  | .error e => .error e
  | .ok st =>
  match jGet data "selection_type".data with
  | .error e => .error e
  | .ok sel =>
  match jGetOpt data "sample_id".data .null with
  | .error e => .error e
  | .ok sid =>
  match jGet data "conversation".data with
  | .error e => .error e
  | .ok conv =>
  match jGetOpt data "scores".data (.obj []) with
  | .error e => .error e
  | .ok scs =>
  match jGet data "individual_rewards".data with
  | .error e => .error e
  | .ok ir =>
  match jGet data "total_reward".data with
  | .error e => .error e
  | .ok tr =>
  match jGet data "renderer_name".data with
  | .error e => .error e
  | .ok rn =>
  match jGet data "sample_info".data with
  | .error e => .error e
  | .ok si =>
  match jGetOpt data "stop_reason".data .null with
  | .error e => .error e
  | .ok sr => .ok ⟨i, ts, st, sel, sid, conv, tcs, scs, ir, tr, rn, si, sr⟩

/-- The enumerate loop of load_rollouts starting at line index i.  The first
component is the result (records, or the error raised); the second is the
list of 1-based line numbers logged for malformed lines before the loop
ended (logging is an immediate side effect, so logs emitted before a raise
are kept). -/
def loadLines (i : ℕ) : List Line → Except LoadErr (List Rollout) × List ℕ
  | [] => (.ok [], [])
  | .blank :: ls => loadLines (i + 1) ls
  | .malformed :: ls =>
    let (res, logs) := loadLines (i + 1) ls
    (res, (i + 1) :: logs)
  | .valid j :: ls =>
    match rolloutOfJson i j with
    | .error e => (.error e, [])
    | .ok r =>
      let (res, logs) := loadLines (i + 1) ls
      (match res with
       | .ok rs => .ok (r :: rs)
       | .error e => .error e, logs)

/-- load_rollouts: none models a missing file (path.exists() false). -/
def load_rollouts : Option (List Line) → Except LoadErr (List Rollout) × List ℕ
  | none => (.ok [], [])
  | some ls => loadLines 0 ls

/-- Positions (0-based raw line index) and payloads of the lines that parse
as JSON, starting the count at i. -/
def goodLines (i : ℕ) : List Line → List (ℕ × Json)
  | [] => []
  | .blank :: ls => goodLines (i + 1) ls
  | .malformed :: ls => goodLines (i + 1) ls
  | .valid j :: ls => (i, j) :: goodLines (i + 1) ls

/-- The 1-based line numbers of malformed lines, starting the 0-based count
at i, as logged by the loader. -/
def malformedAt (i : ℕ) : List Line → List ℕ
  | [] => []
  | .blank :: ls => malformedAt (i + 1) ls
  | .malformed :: ls => (i + 1) :: malformedAt (i + 1) ls
  | .valid _ :: ls => malformedAt (i + 1) ls

def exceptIsOk : Except ε α → Bool
  | .ok _ => true
  | .error _ => false

def okOr : Except ε α → α → α
  | .ok a, _ => a
  | .error _, d => d

/-- Default Rollout, inert default for okOr at call sites where the value is
provably ok. -/
def dfltRollout : Rollout :=
  ⟨0, .null, .null, .null, .null, .null, [], .null, .null, .null, .null, .null, .null⟩

/-- The Rollout the loader reconstructs from line i holding the
serialization of record r (whose selection_type is set): every field of the
original record comes back unchanged, scores defaults to the empty dict and
stop_reason to null. -/
def loadedOfRec (i : ℕ) (r : Rec) : Rollout :=
  { index := i
    timestamp := .str r.timestamp
    step := .num r.step
    selection_type := match r.selection_type with | some s => .str s | none => .null
    sample_id := r.sample_id
    conversation := r.conversation
    token_counts := r.token_counts.map (fun tc =>
      ⟨.num tc.content_tokens, .num tc.reasoning_tokens⟩)
    scores := .obj []
    individual_rewards := r.individual_rewards
    total_reward := rewardToJson r.total_reward
    renderer_name := .str r.renderer_name
    sample_info := r.sample_info
    stop_reason := .null }

/-- Expected round-trip image of a list of records written starting at line
i. -/
def roundTrip (i : ℕ) : List Rec → List Rollout
  | [] => []
  | r :: rs => loadedOfRec i r :: roundTrip (i + 1) rs

/-! Curator: the wrapper closure returned by with_rollout_saving in
rollout_saving.py.  The state captured by the closure is the batch buffer,
the step counter and the trace file contents; the wrapped scoring function
is modelled as returning Except (an exception or a result pair). -/

/-- State owned by the wrapper closure plus the trace file it appends to. -/
structure CuratorState where
  buffer : List Rec
  step : ℕ
  file : List Json

/-- One call of the wrapper: call inner_fn first; on an exception propagate
it with no state change; otherwise build the record at the current step
counter, append it to the buffer, and when the buffer has reached
samples_per_batch advance the step counter, flush through the Selector and
Writer only when the new counter is divisible by save_every, and clear the
buffer.  builder models record_builder with renderer_name already applied;
pick models the random source used by select_rollouts_to_save. -/
def observe {Ctx E : Type} (inner : Ctx → Except E (RewardVal × Json))
    (builder : Ctx → RewardVal → Json → ℕ → Rec)
    (samples_per_batch save_every : ℕ) (pick : ℕ → ℕ → ℕ)
    (ctx : Ctx) (s : CuratorState) :
    CuratorState × Except E (RewardVal × Json) :=
  match inner ctx with
  | .error e => (s, .error e)
  | .ok (tr, rw) =>
    let record := builder ctx tr rw s.step
    let buf := s.buffer ++ [record]
    if samples_per_batch ≤ buf.length then
      let st := s.step + 1
      let fl :=
        if st % save_every = 0 then
          s.file ++ (select_rollouts_to_save pick buf).1.map recToJson
        else s.file
      (⟨[], st, fl⟩, .ok (tr, rw))
    else
      (⟨buf, s.step, s.file⟩, .ok (tr, rw))

/-! Change Watcher: RolloutFileWatcher.on_modified in
rollout_viewer/data.py.  Wall-clock time is modelled as an exact rational
passed with the event; the result counts the callback invocations the event
caused. -/

/-- Mutable state of the watcher: the timestamp of the last accepted
event. -/
structure WatcherState where
  last_modified : ℚ
deriving DecidableEq

/-- str(event.src_path).endswith(file_name). -/
def endsWithStr (s suf : Str) : Bool :=
  List.isSuffixOf suf s

/-- on_modified: ignore directory events and events for other paths;
otherwise accept (record the timestamp and invoke the callback once) exactly
when strictly more than 0.5 seconds have passed since the last accepted
event. -/
def on_modified (file_name : Str) (s : WatcherState)
    (is_directory : Bool) (src_path : Str) (now : ℚ) : WatcherState × ℕ :=
  if is_directory then (s, 0)
  else if ¬ endsWithStr src_path file_name then (s, 0)
  else if 1/2 < now - s.last_modified then (⟨now⟩, 1)
  else (s, 0)


/-! Channel Parser: rollout_viewer/channels.py. -/

/-- A parsed channel segment (the ChannelContent dataclass).  The content
field is untyped JSON because the Python dataclass stores whatever value the
code passes (for structured thinking and text parts that value is the raw
payload of the part, unvalidated); string contents appear as `Json.str`. -/
structure ChannelContent where
  channel : Str
  content : Json

/-- Errors parse_message_content can raise: KeyError from a missing payload
key of a recognized part, or a TypeError-or-AttributeError from calling a
dict method on a non-dict. -/
inductive PErr where
  | missingKey (k : Str)
  | typeErr

/-- Python single quote, left brace, right brace and backslash characters,
written by code point. -/
def sqChar : Char := Char.ofNat 39

def lbChar : Char := Char.ofNat 123

def rbChar : Char := Char.ofNat 125

/-- Rendering of a rational number for Python str(). This models Python
number-to-string conversion only up to the shapes the theorems evaluate:
integers print exactly as Python ints; non-integral values (Python floats
with a fractional part, whose repr this development never evaluates) are
rendered as num/den. -/
def pyReprNum (q : ℚ) : Str :=
  if q.den = 1 then (toString q.num).data
  else (toString q.num).data ++ "/".data ++ (toString q.den).data

mutual

/-- Python repr() of a JSON-decoded value: None, True, False, numbers,
single-quoted strings (string escaping is not modelled; the theorems only
evaluate it on strings without quotes or escapes), lists in brackets and
dicts in braces. -/
def pyRepr : Json → Str
  | .null => "None".data
  | .bool true => "True".data
  | .bool false => "False".data
  | .nan => "nan".data
  | .num q => pyReprNum q
  | .str s => sqChar :: (s ++ [sqChar])
  | .arr xs => '[' :: (pyReprList xs ++ [']'])
  | .obj fs => lbChar :: (pyReprFields fs ++ [rbChar])

def pyReprList : List Json → Str
  | [] => []
  | [x] => pyRepr x
  | x :: y :: xs => pyRepr x ++ ", ".data ++ pyReprList (y :: xs)

def pyReprFields : List (Str × Json) → Str
  | [] => []
  | [(k, v)] => (sqChar :: (k ++ [sqChar])) ++ ": ".data ++ pyRepr v
  | (k, v) :: f :: fs =>
    (sqChar :: (k ++ [sqChar])) ++ ": ".data ++ pyRepr v ++ ", ".data ++
      pyReprFields (f :: fs)

end

/-- Python str() of a JSON-decoded value: the string itself for strings,
repr otherwise. -/
def pyToStr : Json → Str
  | .str s => s
  | j => pyRepr j

/-- Lookup into the fields of a part dict, modelling part[k] with PErr. -/
def pGet (fs : List (Str × Json)) (k : Str) : Except PErr Json :=
  match lookupStr fs k with
  | some v => .ok v
  | none => .error (.missingKey k)

/-- Dispatch of partSeg once the type value is known. -/
def partSegTyped (part : Json) (fs : List (Str × Json)) (t : Json) :
    Except PErr ChannelContent :=
  match t with
  | .str s =>
    if s = "thinking".data then
      match pGet fs "thinking".data with
      | .error e => .error e
      | .ok v => .ok ⟨"thinking".data, v⟩
    else if s = "text".data then
      match pGet fs "text".data with
      | .error e => .error e
      | .ok v => .ok ⟨"text".data, v⟩
    else if s = "tool_call".data then
      match pGet fs "tool_call".data with
      | .error e => .error e
      | .ok tc =>
        match tc with
        | .obj tfs =>
          match (lookupStr tfs "function".data).getD (.obj []) with
          | .obj ffs =>
            let name := (lookupStr ffs "name".data).getD (.str "unknown".data)
            let args := (lookupStr ffs "arguments".data).getD (.str "".data)
            .ok ⟨"tool_call".data,
              .str (pyToStr name ++ "(".data ++ pyToStr args ++ ")".data)⟩
          | _ => .error .typeErr
        | _ => .error .typeErr
    else .ok ⟨"text".data, .str (pyToStr part)⟩
  | _ => .ok ⟨"text".data, .str (pyToStr part)⟩

/-- One iteration of the loop in _parse_structured_content: dispatch on
part.get("type", "text").  The comparisons against the literal type names
succeed only for an equal string value (Python ==), so any other value falls
to the final branch, which appends a text segment holding str(part). A
non-dict part raises when .get is called on it. -/
def partSeg (part : Json) : Except PErr ChannelContent :=
  match part with
  | .obj fs =>
    match lookupStr fs "type".data with
    | some t => partSegTyped part fs t
    | none => partSegTyped part fs (.str "text".data)
  | _ => .error .typeErr

/-- _parse_structured_content: map the loop over the parts; the parts list
is empty exactly when the input is empty, in which case the fallback wraps
str of the whole list. -/
def parseStructuredContent (content : List Json) : Except PErr (List ChannelContent) :=
  match mapExcept partSeg content with
  | .error e => .error e
  | .ok [] => .ok [⟨"text".data, .str (pyToStr (.arr content))⟩]
  | .ok parts => .ok parts

/-- Match a literal at the head of a string: returns the remainder when the
string starts with the literal. -/
def dropLit : Str → Str → Option Str
  | [], s => some s
  | _ :: _, [] => none
  | c :: cs, d :: ds => if c = d then dropLit cs ds else none

/-- One character of the regex class backslash-w, restricted to ASCII (all
strings the code and the theorems handle are ASCII). -/
def isWordChar (c : Char) : Bool :=
  c.isAlphanum || c = '_'

/-- Maximal word-character run at the head of the string (greedy plus-quantifier). -/
def takeWord : Str → Str × Str
  | [] => ([], [])
  | c :: cs =>
    if isWordChar c then
      let (w, r) := takeWord cs
      (c :: w, r)
    else ([], c :: cs)

/-- Non-greedy body scan of _HARMONY_PATTERN: consume characters until the
earliest position where one of the end literals matches, or where the
dollar anchor matches (end of string, or immediately before a final
newline, which is what the Python dollar anchor accepts without MULTILINE).
Returns the body and the remainder after the terminator. -/
def findTerm : Str → Str × Str
  | [] => ([], [])
  | c :: rest =>
    match dropLit "<|end|>".data (c :: rest) with
    | some r => ([], r)
    | none =>
      match dropLit "<|return|>".data (c :: rest) with
      | some r => ([], r)
      | none =>
        match dropLit "<|call|>".data (c :: rest) with
        | some r => ([], r)
        | none =>
          if c = '\n' && rest.isEmpty then ([], c :: rest)
          else
            let (b, r) := findTerm rest
            (c :: b, r)

/-- Attempt of _HARMONY_PATTERN at the start of the string: the channel
literal, a non-empty greedy word run (which cannot backtrack, as a shorter
run would be followed by a word character rather than the message literal),
the message literal, then the non-greedy body.  Returns channel name, body
and the remainder after the match. -/
def matchAt (s : Str) : Option (Str × Str × Str) :=
  match dropLit "<|channel|>".data s with
  | none => none
  | some r1 =>
    match takeWord r1 with
    | ([], _) => none
    | (name, r2) =>
      match dropLit "<|message|>".data r2 with
      | none => none
      | some r3 =>
        let (body, after) := findTerm r3
        some (name, body, after)

/-- finditer scan: try the pattern at each position left to right, and
continue after the end of each match.  Fuel is the string length; each step
either consumes one character (no match here) or an entire match of at
least the two literals (at least 23 characters), so the fuel never runs
out. -/
def harmonyScan : ℕ → Str → List (Str × Str)
  | 0, _ => []
  | _, [] => []
  | fuel + 1, c :: rest =>
    match matchAt (c :: rest) with
    | some (name, body, after) => (name, body) :: harmonyScan fuel after
    | none => harmonyScan fuel rest

/-- All matches of _HARMONY_PATTERN in document order, as produced by
re.finditer. -/
def harmonyMatches (s : Str) : List (Str × Str) :=
  harmonyScan s.length s

/-- The if-elif chain of _parse_harmony_content mapping one match to a
segment. -/
def harmonySeg : Str × Str → ChannelContent
  | (name, text) =>
    if name = "analysis".data then ⟨"thinking".data, .str text⟩
    else if name = "final".data then ⟨"text".data, .str text⟩
    else if name = "commentary".data then ⟨"commentary".data, .str text⟩
    else ⟨"text".data, .str text⟩

/-- _parse_harmony_content: one segment per match in document order, or a
single text segment over the whole string when there is no match. -/
def parseHarmonyContent (content : Str) : List ChannelContent :=
  match harmonyMatches content with
  | [] => [⟨"text".data, .str content⟩]
  | ms => ms.map harmonySeg

/-- Earliest closing think literal: returns the body up to it and the
remainder after it, or none when the literal does not occur. -/
def findThinkClose : Str → Option (Str × Str)
  | [] => none
  | c :: rest =>
    match dropLit "</think>".data (c :: rest) with
    | some r => some ([], r)
    | none =>
      match findThinkClose rest with
      | some (b, r) => some (c :: b, r)
      | none => none

/-- Earliest match of the think pattern: the text before the opening
literal, the non-greedy body, and the remainder after the closing literal.
When an opening literal has no closing literal anywhere after it, no later
opening can have one either, so the whole scan has no further match. -/
def findThink : Str → Option (Str × Str × Str)
  | [] => none
  | c :: rest =>
    match dropLit "<think>".data (c :: rest) with
    | some r1 =>
      match findThinkClose r1 with
      | some (body, after) => some ([], body, after)
      | none => none
    | none =>
      match findThink rest with
      | some (pre, body, after) => some (c :: pre, body, after)
      | none => none

/-- text.strip() is non-falsy: the string has a non-whitespace character. -/
def hasNonWS (s : Str) : Bool :=
  s.any (fun c => !c.isWhitespace)

/-- The finditer loop of _parse_qwen3_content: before each think match emit
the preceding text when its strip is non-empty, then the thinking segment,
then continue after the match; after the last match emit the trailing text
when its strip is non-empty.  Fuel is the string length; every match
consumes at least the two literals. -/
def qwenScan : ℕ → Str → List ChannelContent
  | 0, _ => []
  | fuel + 1, s =>
    match findThink s with
    | none => if hasNonWS s then [⟨"text".data, .str s⟩] else []
    | some (pre, body, after) =>
      (if hasNonWS pre then [⟨"text".data, .str pre⟩] else []) ++
        ⟨"thinking".data, .str body⟩ :: qwenScan fuel after

/-- _parse_qwen3_content with its empty-parts fallback. -/
def parseQwen3Content (content : Str) : List ChannelContent :=
  match qwenScan (content.length + 1) content with
  | [] => [⟨"text".data, .str content⟩]
  | ps => ps

/-- Message content as read by parse_message_content: a plain string or a
structured list of parts. -/
inductive MContent where
  | str (s : Str)
  | parts (ps : List Json)

/-- The fields of a message dict that parse_message_content reads:
message.get("content", "") as MContent, message.get("role", "") and
message.get("reasoning_content") collapsed to a string that is empty when
the key is absent or falsy. -/
structure Message where
  role : Str
  content : MContent
  reasoning : Str

/-- str(content) for the tool-role branch. -/
def contentToStr : MContent → Str
  | .str s => s
  | .parts ps => pyToStr (.arr ps)

/-- Substring test, modelling the Python in-operator on strings. -/
def hasSub (pat : Str) : Str → Bool
  | [] => pat.isEmpty
  | c :: rest => (dropLit pat (c :: rest)).isSome || hasSub pat rest

/-- parse_message_content: tool role first, then structured content, then a
populated reasoning_content field, then renderer-based parsing of plain
string content. -/
def parse_message_content (m : Message) (renderer_name : Str) :
    Except PErr (List ChannelContent) :=
  if m.role = "tool".data then
    .ok [⟨"tool_result".data, .str (contentToStr m.content)⟩]
  else
    match m.content with
    | .parts ps => parseStructuredContent ps
    | .str content =>
      if !m.reasoning.isEmpty then
        .ok (⟨"thinking".data, .str m.reasoning⟩ ::
          (if !content.isEmpty then [⟨"text".data, .str content⟩] else []))
      else if hasSub "GptOss".data renderer_name then
        .ok (parseHarmonyContent content)
      else if hasSub "Qwen3".data renderer_name then
        .ok (parseQwen3Content content)
      else
        .ok [⟨"text".data, .str content⟩]

/-- Modelled from the claim under examination: the same channel grammar but
with the body terminated only by an end literal or the true end of the
string, the way the claim reads the pattern, without the Python dollar
anchor acceptance just before a final newline.  Used solely to exhibit where
the two grammars differ. -/
def findTermStrictEOS : Str → Str × Str
  | [] => ([], [])
  | c :: rest =>
    match dropLit "<|end|>".data (c :: rest) with
    | some r => ([], r)
    | none =>
      match dropLit "<|return|>".data (c :: rest) with
      | some r => ([], r)
      | none =>
        match dropLit "<|call|>".data (c :: rest) with
        | some r => ([], r)
        | none =>
          let (b, r) := findTermStrictEOS rest
          (c :: b, r)

/-- The pattern attempt of the claim-side grammar. -/
def matchAtStrictEOS (s : Str) : Option (Str × Str × Str) :=
  match dropLit "<|channel|>".data s with
  | none => none
  | some r1 =>
    match takeWord r1 with
    | ([], _) => none
    | (name, r2) =>
      match dropLit "<|message|>".data r2 with
      | none => none
      | some r3 =>
        let (body, after) := findTermStrictEOS r3
        some (name, body, after)

/-- The match list of the claim-side grammar. -/
def harmonyScanStrictEOS : ℕ → Str → List (Str × Str)
  | 0, _ => []
  | _, [] => []
  | fuel + 1, c :: rest =>
    match matchAtStrictEOS (c :: rest) with
    | some (name, body, after) => (name, body) :: harmonyScanStrictEOS fuel after
    | none => harmonyScanStrictEOS fuel rest

def harmonyMatchesStrictEOS (s : Str) : List (Str × Str) :=
  harmonyScanStrictEOS s.length s

/-! Helper lemmas shared by the theorems below. -/

lemma parseTCs_map (tcs : List TokenCountRec) :
    parseTCs (Json.arr (tcs.map (fun tc =>
      Json.obj [("content_tokens".data, Json.num tc.content_tokens),
                ("reasoning_tokens".data, Json.num tc.reasoning_tokens)]))) =
    Except.ok (tcs.map (fun tc =>
      (⟨Json.num tc.content_tokens, Json.num tc.reasoning_tokens⟩ : LTokenCount))) := by
  induction tcs with
  | nil => rfl
  | cons tc tcs ih =>
    simp only [List.map_cons, parseTCs, mapExcept] at ih ⊢
    rw [show parseTC (Json.obj [("content_tokens".data, Json.num tc.content_tokens),
        ("reasoning_tokens".data, Json.num tc.reasoning_tokens)]) =
        Except.ok (⟨Json.num tc.content_tokens, Json.num tc.reasoning_tokens⟩ : LTokenCount)
      from rfl]
    rw [ih]

lemma rolloutOfJson_recToJson (i : ℕ) (r : Rec) (sel : Str)
    (h : r.selection_type = some sel) :
    rolloutOfJson i (recToJson r) = Except.ok (loadedOfRec i r) := by
  have htc := parseTCs_map r.token_counts
  unfold recToJson loadedOfRec
  rw [h]
  unfold rolloutOfJson
  split
  · next e heq => exact Except.noConfusion heq
  · next tcsJ heq =>
    injection heq with h1
    subst h1
    rw [htc]
    rfl

lemma rolloutOfJson_index (i : ℕ) (data : Json) (r : Rollout)
    (h : rolloutOfJson i data = Except.ok r) : r.index = i := by
  unfold rolloutOfJson at h
  repeat' split at h
  all_goals first
    | exact Except.noConfusion h
    | (injection h with h2; rw [← h2])

lemma loadLines_all_ok (ls : List Line) : ∀ i : ℕ,
    (∀ pj ∈ goodLines i ls, exceptIsOk (rolloutOfJson pj.1 pj.2) = true) →
    loadLines i ls =
      (Except.ok ((goodLines i ls).map (fun pj => okOr (rolloutOfJson pj.1 pj.2) dfltRollout)),
       malformedAt i ls) := by
  induction ls with
  | nil => intro i _; rfl
  | cons l ls ih =>
    intro i hall
    cases l with
    | blank =>
      simp only [loadLines, goodLines, malformedAt]
      exact ih (i + 1) (fun pj hm => hall pj hm)
    | malformed =>
      simp only [loadLines, goodLines, malformedAt]
      rw [ih (i + 1) (fun pj hm => hall pj hm)]
    | valid j =>
      have hok := hall (i, j) (by simp [goodLines])
      simp only [loadLines, goodLines, malformedAt, List.map_cons]
      cases hr : rolloutOfJson i j with
      | error e => rw [hr] at hok; exact absurd hok (by simp [exceptIsOk])
      | ok r =>
        rw [ih (i + 1) (fun pj hm => hall pj (by simp [goodLines]; right; exact hm))]
        simp [okOr, hr]

lemma loadLines_indices (ls : List Line) : ∀ (i : ℕ) (rs : List Rollout) (logs : List ℕ),
    loadLines i ls = (Except.ok rs, logs) →
    rs.map Rollout.index = (goodLines i ls).map Prod.fst := by
  induction ls with
  | nil =>
    intro i rs logs h
    injection h with h1 _
    injection h1 with h1
    rw [← h1]
    rfl
  | cons l ls ih =>
    intro i rs logs h
    cases l with
    | blank => exact ih (i + 1) rs logs h
    | malformed =>
      simp only [loadLines] at h
      cases hrec : loadLines (i + 1) ls with
      | mk res lg =>
        rw [hrec] at h
        injection h with h1 _
        cases res with
        | error e => exact Except.noConfusion h1
        | ok rs2 =>
          injection h1 with h1
          rw [← h1]
          exact ih (i + 1) rs2 lg hrec
    | valid j =>
      simp only [loadLines] at h
      cases hr : rolloutOfJson i j with
      | error e => rw [hr] at h; exact Except.noConfusion (congrArg Prod.fst h)
      | ok r =>
        rw [hr] at h
        cases hrec : loadLines (i + 1) ls with
        | mk res lg =>
          rw [hrec] at h
          cases res with
          | error e => exact Except.noConfusion (congrArg Prod.fst h)
          | ok rs2 =>
            injection h with h1 _
            injection h1 with h1
            rw [← h1]
            simp only [goodLines, List.map_cons]
            rw [rolloutOfJson_index i j r hr]
            rw [ih (i + 1) rs2 lg hrec]

lemma loadLines_roundTrip (recs : List Rec) : ∀ i : ℕ,
    (∀ r ∈ recs, ∃ s, r.selection_type = some s) →
    loadLines i (recs.map (fun r => Line.valid (recToJson r))) =
      (Except.ok (roundTrip i recs), []) := by
  induction recs with
  | nil => intro i _; rfl
  | cons r recs ih =>
    intro i hall
    obtain ⟨s, hs⟩ := hall r (by simp)
    simp only [List.map_cons, loadLines, roundTrip]
    rw [rolloutOfJson_recToJson i r s hs]
    rw [ih (i + 1) (fun r2 hm => hall r2 (by simp [hm]))]

/-! Theorems settling the claims. -/

/-- C1: the claim states that a record with NaN total_reward is never
stamped best or worst unless every reward is NaN.  The code violates this
(and the docstring of select_rollouts_to_save, which says NaN rewards are
excluded from best and worst selection): on rewards [1, NaN], NaN sorts
last, so sorted[-1] is the NaN record and it is returned stamped best even
though a non-NaN record is present. -/
theorem nan_rollout_selected_as_best :
    ∀ pick, select_rollouts_to_save pick [recOne, recNaN] =
        ([stamp recOne "worst".data, stamp recNaN "best".data], [(1, 2)]) ∧
      (stamp recNaN "best".data).total_reward = RewardVal.nan ∧
      (stamp recNaN "best".data).selection_type = some "best".data ∧
      recOne.total_reward = RewardVal.val 1 :=
  fun _ => ⟨rfl, rfl, rfl, rfl⟩

/-- C10: the Selector applied to the empty list returns the empty list,
with no warning emitted, for every random source. -/
theorem select_empty_returns_empty :
    ∀ pick, select_rollouts_to_save pick [] = ([], []) :=
  fun _ => rfl

/-- C2 counterexample: a line that parses as a JSON object but lacks the
required fields is not skipped with a log; the loader raises a KeyError out
of load_rollouts, contrary to the claim that load never raises. -/
theorem loader_raises_on_missing_required_field :
    load_rollouts (some [Line.valid (Json.obj [])]) =
      (Except.error (LoadErr.missingKey "token_counts".data), []) ∧
    exceptIsOk (load_rollouts (some [Line.valid (Json.obj [])])).1 = false :=
  ⟨rfl, rfl⟩

/-- C2 amended: a missing file yields the empty sequence; blank lines are
skipped silently, lines that fail JSON parsing are skipped with a
diagnostic log of their 1-based line number, and when every JSON-parsable
line also parses as a rollout the loader returns exactly those records in
order.  (A JSON-parsable line lacking a required field instead raises, per
the counterexample.) -/
theorem loader_skips_malformed_and_blank_lines :
    load_rollouts none = (Except.ok [], []) ∧
    ∀ ls : List Line,
      (∀ pj ∈ goodLines 0 ls, exceptIsOk (rolloutOfJson pj.1 pj.2) = true) →
      load_rollouts (some ls) =
        (Except.ok ((goodLines 0 ls).map
            (fun pj => okOr (rolloutOfJson pj.1 pj.2) dfltRollout)),
         malformedAt 0 ls) :=
  ⟨rfl, fun ls h => loadLines_all_ok ls 0 h⟩

theorem loader_skips_malformed_and_blank_lines_witness :
    load_rollouts (some [Line.blank, Line.malformed,
        Line.valid (recToJson (stamp recOne "best".data))]) =
      (Except.ok ((goodLines 0 [Line.blank, Line.malformed,
          Line.valid (recToJson (stamp recOne "best".data))]).map
        (fun pj => okOr (rolloutOfJson pj.1 pj.2) dfltRollout)),
       malformedAt 0 [Line.blank, Line.malformed,
          Line.valid (recToJson (stamp recOne "best".data))]) := by
  refine loader_skips_malformed_and_blank_lines.2 _ ?_
  intro pj hm
  rw [show goodLines 0 [Line.blank, Line.malformed,
      Line.valid (recToJson (stamp recOne "best".data))] =
    [(2, recToJson (stamp recOne "best".data))] from rfl] at hm
  rw [List.mem_singleton.mp hm]
  rfl

/-- C4 counterexample: with a malformed second line between two valid
lines, the loader assigns indices 0 and 2 (the raw line numbers), not 0 and
1 (the positions among successfully parsed lines); the record after the
skipped line does not carry the previous index plus one. -/
theorem loader_index_skips_after_malformed_line :
    load_rollouts (some [Line.valid (recToJson (stamp recOne "best".data)), Line.malformed,
        Line.valid (recToJson (stamp recOne "best".data))]) =
      (Except.ok [loadedOfRec 0 (stamp recOne "best".data),
        loadedOfRec 2 (stamp recOne "best".data)], [2]) ∧
    (loadedOfRec 0 (stamp recOne "best".data)).index = 0 ∧
    (loadedOfRec 2 (stamp recOne "best".data)).index = 2 ∧
    (2 : ℕ) ≠ 0 + 1 :=
  ⟨rfl, rfl, rfl, by decide⟩

/-- C4 amended: every record returned by the loader carries as index the
raw zero-based line number of its line in the file, so after a skipped line
the next index exceeds the previous one by more than one. -/
theorem loader_index_equals_raw_line_position :
    ∀ (ls : List Line) (rs : List Rollout) (logs : List ℕ),
      load_rollouts (some ls) = (Except.ok rs, logs) →
      rs.map Rollout.index = (goodLines 0 ls).map Prod.fst :=
  fun ls rs logs h => loadLines_indices ls 0 rs logs h

theorem loader_index_equals_raw_line_position_witness :
    [loadedOfRec 1 (stamp recOne "best".data)].map Rollout.index =
      (goodLines 0 [Line.malformed,
        Line.valid (recToJson (stamp recOne "best".data))]).map Prod.fst :=
  loader_index_equals_raw_line_position
    [Line.malformed, Line.valid (recToJson (stamp recOne "best".data))]
    [loadedOfRec 1 (stamp recOne "best".data)] [1] rfl

/-- C6 counterexample: a record as produced by the record builder has no
selection_type field, so writing it and loading the file does not return
it; the loader raises a KeyError instead of yielding the record. -/
theorem builder_record_without_selection_type_fails_roundtrip :
    recOne.selection_type = none ∧
    load_rollouts (some [Line.valid (recToJson recOne)]) =
      (Except.error (LoadErr.missingKey "selection_type".data), []) ∧
    exceptIsOk (load_rollouts (some [Line.valid (recToJson recOne)])).1 = false :=
  ⟨rfl, rfl, rfl⟩

/-- C6 amended: for every list of records as handed to the Writer by the
Curator (builder records stamped with a selection_type by the Selector),
appending them to an empty trace file and loading yields exactly that many
records, field-for-field equal to the originals, in order, with no log. -/
theorem writer_loader_roundtrip :
    ∀ recs : List Rec,
      (∀ r ∈ recs, ∃ s, r.selection_type = some s) →
      load_rollouts (some (recs.map (fun r => Line.valid (recToJson r)))) =
        (Except.ok (roundTrip 0 recs), []) :=
  fun recs h => loadLines_roundTrip recs 0 h

theorem writer_loader_roundtrip_witness :
    load_rollouts (some ([stamp recOne "worst".data, stamp recNaN "best".data].map
        (fun r => Line.valid (recToJson r)))) =
      (Except.ok (roundTrip 0 [stamp recOne "worst".data, stamp recNaN "best".data]), []) := by
  refine writer_loader_roundtrip _ ?_
  intro r hm
  fin_cases hm
  · exact ⟨_, rfl⟩
  · exact ⟨_, rfl⟩

/-- C5: confirmed.  Each successful call appends exactly one record built
at the current step counter; when the buffer reaches samples_per_batch the
step counter increments by one and the buffer is cleared, and the output of
the Selector on the completed batch is appended to the trace file exactly
when the incremented counter is divisible by save_every; otherwise the
batch is discarded without being written. -/
theorem curator_batch_flush_policy {Ctx E : Type}
    (inner : Ctx → Except E (RewardVal × Json))
    (builder : Ctx → RewardVal → Json → ℕ → Rec)
    (spb save_every : ℕ) (pick : ℕ → ℕ → ℕ) (ctx : Ctx) (s : CuratorState)
    (tr : RewardVal) (rw : Json)
    (hok : inner ctx = Except.ok (tr, rw)) (_hse : 0 < save_every) :
    (observe inner builder spb save_every pick ctx s).2 = Except.ok (tr, rw) ∧
    (s.buffer.length + 1 < spb →
      (observe inner builder spb save_every pick ctx s).1 =
        ⟨s.buffer ++ [builder ctx tr rw s.step], s.step, s.file⟩) ∧
    (spb ≤ s.buffer.length + 1 →
      (observe inner builder spb save_every pick ctx s).1.buffer = [] ∧
      (observe inner builder spb save_every pick ctx s).1.step = s.step + 1 ∧
      ((s.step + 1) % save_every = 0 →
        (observe inner builder spb save_every pick ctx s).1.file =
          s.file ++ (select_rollouts_to_save pick
            (s.buffer ++ [builder ctx tr rw s.step])).1.map recToJson) ∧
      ((s.step + 1) % save_every ≠ 0 →
        (observe inner builder spb save_every pick ctx s).1.file = s.file)) := by
  unfold observe
  rw [hok]
  simp only [List.length_append, List.length_singleton]
  by_cases hb : spb ≤ s.buffer.length + 1
  · rw [if_pos hb]
    by_cases hmod : (s.step + 1) % save_every = 0
    · rw [if_pos hmod]
      exact ⟨rfl, fun hlt => absurd hb (by omega), fun _ =>
        ⟨rfl, rfl, fun _ => rfl, fun hne => absurd hmod hne⟩⟩
    · rw [if_neg hmod]
      exact ⟨rfl, fun hlt => absurd hb (by omega), fun _ =>
        ⟨rfl, rfl, fun hmo => absurd hmo hmod, fun _ => rfl⟩⟩
  · rw [if_neg hb]
    exact ⟨rfl, fun _ => rfl, fun hge => absurd hge hb⟩

theorem curator_batch_flush_policy_witness :
    (observe (fun _ => Except.ok (RewardVal.val 1, Json.obj []) :
        Unit → Except Unit (RewardVal × Json)) (fun _ _ _ _ => recOne)
        1 1 (fun a _ => a) () ⟨[], 0, []⟩).2 =
      Except.ok (RewardVal.val 1, Json.obj []) ∧
    (observe (fun _ => Except.ok (RewardVal.val 1, Json.obj []) :
        Unit → Except Unit (RewardVal × Json)) (fun _ _ _ _ => recOne)
        1 1 (fun a _ => a) () ⟨[], 0, []⟩).1.buffer = [] ∧
    (observe (fun _ => Except.ok (RewardVal.val 1, Json.obj []) :
        Unit → Except Unit (RewardVal × Json)) (fun _ _ _ _ => recOne)
        1 1 (fun a _ => a) () ⟨[], 0, []⟩).1.step = 0 + 1 := by
  have h := curator_batch_flush_policy
    (fun _ => Except.ok (RewardVal.val 1, Json.obj []) :
      Unit → Except Unit (RewardVal × Json)) (fun _ _ _ _ => recOne)
    1 1 (fun a _ => a) () ⟨[], 0, []⟩ (RewardVal.val 1) (Json.obj [])
    rfl (by decide)
  exact ⟨h.1, (h.2.2 (by decide)).1, (h.2.2 (by decide)).2.1⟩

/-- C9: confirmed.  When the wrapped scoring function raises, the exception
propagates unchanged out of the wrapper and the state is untouched: no
record is buffered, the step counter does not advance, and nothing is
written to the trace file. -/
theorem scoring_error_propagates_without_buffering {Ctx E : Type}
    (inner : Ctx → Except E (RewardVal × Json))
    (builder : Ctx → RewardVal → Json → ℕ → Rec)
    (spb save_every : ℕ) (pick : ℕ → ℕ → ℕ) (ctx : Ctx) (s : CuratorState)
    (e : E) (h : inner ctx = Except.error e) :
    observe inner builder spb save_every pick ctx s = (s, Except.error e) ∧
    (observe inner builder spb save_every pick ctx s).1.buffer = s.buffer ∧
    (observe inner builder spb save_every pick ctx s).1.step = s.step ∧
    (observe inner builder spb save_every pick ctx s).1.file = s.file := by
  unfold observe
  rw [h]
  exact ⟨rfl, rfl, rfl, rfl⟩

theorem scoring_error_propagates_without_buffering_witness :
    observe (fun _ => Except.error () : Unit → Except Unit (RewardVal × Json))
      (fun _ _ _ _ => recOne) 1 1 (fun a _ => a) () ⟨[recNaN], 5, [Json.null]⟩ =
      (⟨[recNaN], 5, [Json.null]⟩, Except.error ()) :=
  (scoring_error_propagates_without_buffering
    (fun _ => Except.error () : Unit → Except Unit (RewardVal × Json))
    (fun _ _ _ _ => recOne) 1 1 (fun a _ => a) () ⟨[recNaN], 5, [Json.null]⟩ () rfl).1

/-- C3 counterexample: a structured content part with the unrecognized type
image does not make the Channel Parser raise; it is silently mapped to a
text segment holding the Python stringification of the part. -/
theorem unknown_part_type_mapped_to_text_segment :
    parseStructuredContent [Json.obj [("type".data, Json.str "image".data)]] =
      Except.ok [⟨"text".data,
        Json.str (pyToStr (Json.obj [("type".data, Json.str "image".data)]))⟩] ∧
    exceptIsOk (parseStructuredContent
      [Json.obj [("type".data, Json.str "image".data)]]) = true :=
  ⟨rfl, rfl⟩

/-- C3 amended: a part whose type value is not one of the recognized
strings thinking, text, tool_call is mapped to a text segment containing
str of the part; the parser never raises on an unrecognized part type
(errors arise only from missing payload keys of recognized types or from
non-dict parts). -/
theorem structured_unknown_type_never_raises
    (fs : List (Str × Json)) (t : Json)
    (ht : lookupStr fs "type".data = some t)
    (hs : ∀ s : Str, t = Json.str s →
      s ≠ "thinking".data ∧ s ≠ "text".data ∧ s ≠ "tool_call".data) :
    partSeg (Json.obj fs) = Except.ok ⟨"text".data, Json.str (pyToStr (Json.obj fs))⟩ ∧
    parseStructuredContent [Json.obj fs] =
      Except.ok [⟨"text".data, Json.str (pyToStr (Json.obj fs))⟩] := by
  have hp : partSeg (Json.obj fs) =
      Except.ok ⟨"text".data, Json.str (pyToStr (Json.obj fs))⟩ := by
    simp only [partSeg]
    rw [ht]
    cases t with
    | str s =>
      obtain ⟨h1, h2, h3⟩ := hs s rfl
      show partSegTyped (Json.obj fs) fs (Json.str s) =
        Except.ok ⟨"text".data, Json.str (pyToStr (Json.obj fs))⟩
      simp only [partSegTyped]
      rw [if_neg h1, if_neg h2, if_neg h3]
    | null => rfl
    | bool b => cases b <;> rfl
    | nan => rfl
    | num q => rfl
    | arr xs => rfl
    | obj fs2 => rfl
  refine ⟨hp, ?_⟩
  unfold parseStructuredContent mapExcept
  rw [hp]
  rfl

theorem structured_unknown_type_never_raises_witness :
    partSeg (Json.obj [("type".data, Json.str "video".data)]) =
      Except.ok ⟨"text".data,
        Json.str (pyToStr (Json.obj [("type".data, Json.str "video".data)]))⟩ :=
  (structured_unknown_type_never_raises
    [("type".data, Json.str "video".data)] (Json.str "video".data) rfl (by
    intro s h
    injection h with h
    rw [← h]
    exact ⟨by decide, by decide, by decide⟩)).1

/-- C7 counterexample: under the claim-side reading of the grammar (body
terminated by an end marker or the true end of the string) the input with a
trailing newline yields a body containing that newline, but the code (the
Python dollar anchor also matching just before a final newline) excludes
the newline from the body, so the emitted segment differs from the one the
claim predicts. -/
theorem harmony_trailing_newline_excluded_from_body :
    harmonyMatchesStrictEOS "<|channel|>final<|message|>bar\n".data =
      [("final".data, "bar\n".data)] ∧
    harmonyMatches "<|channel|>final<|message|>bar\n".data =
      [("final".data, "bar".data)] ∧
    parseHarmonyContent "<|channel|>final<|message|>bar\n".data =
      [⟨"text".data, Json.str "bar".data⟩] ∧
    "bar".data ≠ "bar\n".data :=
  ⟨rfl, rfl, rfl, by decide⟩

/-- C7 amended: for plain string content under a GptOss renderer the
Channel Parser emits one segment per match of the Harmony grammar in
document order (body terminated by an end marker, the end of the string, or
immediately before a string-final newline), mapping analysis to thinking,
final to text, commentary to commentary and anything else to text; with no
match it emits one text segment over the whole string; on the two-channel
input it yields exactly thinking foo then text bar. -/
theorem harmony_channel_mapping :
    (∀ content rname : Str, hasSub "GptOss".data rname = true →
      parse_message_content ⟨"assistant".data, MContent.str content, []⟩ rname =
        Except.ok (parseHarmonyContent content)) ∧
    (∀ s : Str, harmonyMatches s = [] →
      parseHarmonyContent s = [⟨"text".data, Json.str s⟩]) ∧
    (∀ (s : Str) (m : Str × Str) (ms : List (Str × Str)),
      harmonyMatches s = m :: ms →
      parseHarmonyContent s = (m :: ms).map harmonySeg) ∧
    (∀ body : Str, harmonySeg ("analysis".data, body) = ⟨"thinking".data, Json.str body⟩) ∧
    (∀ body : Str, harmonySeg ("final".data, body) = ⟨"text".data, Json.str body⟩) ∧
    (∀ body : Str, harmonySeg ("commentary".data, body) = ⟨"commentary".data, Json.str body⟩) ∧
    (∀ name body : Str, name ≠ "analysis".data → name ≠ "final".data →
      name ≠ "commentary".data →
      harmonySeg (name, body) = ⟨"text".data, Json.str body⟩) ∧
    parseHarmonyContent
        "<|channel|>analysis<|message|>foo<|end|><|channel|>final<|message|>bar<|return|>".data =
      [⟨"thinking".data, Json.str "foo".data⟩, ⟨"text".data, Json.str "bar".data⟩] := by
  refine ⟨?_, ?_, ?_, fun _ => rfl, fun _ => rfl, fun _ => rfl, ?_, rfl⟩
  · intro content rname hgpt
    simp only [parse_message_content]
    rw [if_neg (by decide : ¬("assistant".data = "tool".data))]
    simp only [List.isEmpty_nil, Bool.not_true, Bool.false_eq_true, if_false]
    rw [if_pos hgpt]
  · intro s h
    simp only [parseHarmonyContent]
    rw [h]
  · intro s m ms h
    simp only [parseHarmonyContent]
    rw [h]
  · intro name body h1 h2 h3
    simp only [harmonySeg]
    rw [if_neg h1, if_neg h2, if_neg h3]

theorem harmony_channel_mapping_witness :
    parse_message_content ⟨"assistant".data, MContent.str "hello".data, []⟩
        "GptOssRenderer".data =
      Except.ok (parseHarmonyContent "hello".data) ∧
    parseHarmonyContent "hello".data = [⟨"text".data, Json.str "hello".data⟩] :=
  ⟨harmony_channel_mapping.1 "hello".data "GptOssRenderer".data (by decide),
   harmony_channel_mapping.2.1 "hello".data rfl⟩

/-- C8 counterexample: a qualifying event arriving exactly 0.5 seconds
after the last accepted one is not less than 0.5 seconds after it, so the
claim says it invokes the callback; the code compares with strict greater
than and discards it, invoking no callback. -/
theorem watcher_discards_event_at_half_second :
    on_modified "rollouts.jsonl".data ⟨100⟩ false "/tmp/rollouts.jsonl".data (100 + 1/2) =
      (⟨100⟩, 0) ∧
    ¬((100 + 1/2 : ℚ) - 100 < 1/2) := by
  constructor
  · have hq : endsWithStr "/tmp/rollouts.jsonl".data "rollouts.jsonl".data = true := by decide
    simp only [on_modified, hq]
    norm_num
  · norm_num

/-- C8 amended: a directory event or an event for a different path is
ignored; a qualifying event is accepted (timestamp recorded, callback
invoked exactly once) exactly when strictly more than 0.5 seconds have
passed since the last accepted event, and discarded when 0.5 seconds or
less have passed; consequently two qualifying events within 0.5 seconds of
each other, the first accepted, invoke the callback exactly once in
total. -/
theorem watcher_debounce_threshold (fname path : Str) (s : WatcherState)
    (now now2 : ℚ) (hq : endsWithStr path fname = true) :
    on_modified fname s true path now = (s, 0) ∧
    (∀ p2 : Str, endsWithStr p2 fname = false →
      on_modified fname s false p2 now = (s, 0)) ∧
    (1/2 < now - s.last_modified → on_modified fname s false path now = (⟨now⟩, 1)) ∧
    (now - s.last_modified ≤ 1/2 → on_modified fname s false path now = (s, 0)) ∧
    (1/2 < now - s.last_modified → now2 - now ≤ 1/2 →
      (on_modified fname s false path now).2 +
        (on_modified fname (on_modified fname s false path now).1 false path now2).2 = 1) := by
  have hacc : ∀ (st : WatcherState) (t : ℚ), 1/2 < t - st.last_modified →
      on_modified fname st false path t = (⟨t⟩, 1) := by
    intro st t hgt
    unfold on_modified
    split_ifs <;> first | rfl | (exfalso; linarith) | simp_all
  have hrej : ∀ (st : WatcherState) (t : ℚ), t - st.last_modified ≤ 1/2 →
      on_modified fname st false path t = (st, 0) := by
    intro st t hle
    unfold on_modified
    split_ifs <;> first | rfl | (exfalso; linarith) | simp_all
  refine ⟨rfl, ?_, fun hgt => hacc s now hgt, fun hle => hrej s now hle, ?_⟩
  · intro p2 h2
    unfold on_modified
    split_ifs <;> first | rfl | simp_all
  · intro hgt hle
    rw [hacc s now hgt, hrej ⟨now⟩ now2 hle]
    rfl

theorem watcher_debounce_threshold_witness :
    endsWithStr "/tmp/a.jsonl".data "a.jsonl".data = true ∧
    on_modified "a.jsonl".data ⟨0⟩ false "/tmp/a.jsonl".data 1 = (⟨1⟩, 1) ∧
    (on_modified "a.jsonl".data ⟨0⟩ false "/tmp/a.jsonl".data 1).2 +
      (on_modified "a.jsonl".data
        (on_modified "a.jsonl".data ⟨0⟩ false "/tmp/a.jsonl".data 1).1
        false "/tmp/a.jsonl".data (3/2)).2 = 1 := by
  have hq : endsWithStr "/tmp/a.jsonl".data "a.jsonl".data = true := by decide
  have h := watcher_debounce_threshold "a.jsonl".data "/tmp/a.jsonl".data ⟨0⟩ 1 (3/2) hq
  exact ⟨hq, h.2.2.1 (by norm_num), h.2.2.2.2 (by norm_num) (by norm_num)⟩
